import Mathlib

/-!
Shallow embedding of `src/examples/python-examples.py` from the
`mcp-server-trello` repository examples: task management, Kanban automation,
retrospective management and project analytics over an external Trello-like
service.  Remote mutations are modelled as explicit action traces; the current
instant (`datetime.now()`) and all timestamps are modelled as integer Unix
seconds (one day = 86400 seconds; `timedelta.days` is floor division by
86400, as in Python).  Fallible code returns `Except`.
-/

namespace TrelloExamples

/-- The `Priority` enum of the source (`CRITICAL/HIGH/MEDIUM/LOW`). -/
inductive Priority where
  | critical
  | high
  | medium
  | low
deriving DecidableEq, Repr

/-- `priority.value`: the string value of each enum member. -/
def Priority.value : Priority → String
  | .critical => "critical"
  | .high => "high"
  | .medium => "medium"
  | .low => "low"

/-- `Priority(s)`: the enum constructor lookup by value; `none` models the
`ValueError` branch of `Priority(label)`. -/
def Priority.ofString (s : String) : Option Priority :=
  if s = "critical" then some .critical
  else if s = "high" then some .high
  else if s = "medium" then some .medium
  else if s = "low" then some .low
  else none

/-- The `Task` dataclass.  `dueDate` is an optional timestamp in seconds;
`labels` and `checklistItems` keep Python's `None` default as `Option`. -/
structure Task where
  name : String
  description : String
  priority : Priority
  assignee : Option String := none
  dueDate : Option Int := none
  labels : Option (List String) := none
  checklistItems : Option (List String) := none

/-- The `days_by_priority` lookup table of `create_task`. -/
def daysByPriority : Priority → Int
  | .critical => 1
  | .high => 3
  | .medium => 7
  | .low => 14

/-- A remote mutation issued through `call_tool`. -/
inductive TrelloAction where
  | addCard (listId : String) (name : String)
  | moveCard (cardId : String) (listId : String)
  | updateLabels (cardId : String) (labels : List String)
  | addComment (cardId : String) (text : String)
  | addChecklistItem (text : String)
deriving DecidableEq, Repr

/-- The arguments `create_task` passes to `add_card_to_list`. -/
structure AddCardArgs where
  listId : String
  name : String
  dueDate : Int
  labels : List String
deriving DecidableEq, Repr

/-- `create_task` (lines 83-112): due-date defaulting (`if not task.due_date`;
a `datetime` is always truthy in Python, so only an absent date is replaced)
and the card-creation arguments, with `task.labels or [task.priority.value]`
(an absent or empty label list is falsy and falls back to the priority value).
`now` stands for `datetime.now()` in seconds.  The synthesized description
string (`_format_task_description`) and the trailing checklist-item loop are
pure formatting and follow-up calls not referenced by any claim and are left
out of the record. -/
def createTask (priorityLists : Priority → String) (task : Task) (now : Int) :
    AddCardArgs :=
  let due : Int :=
    match task.dueDate with
    | some d => d
    | none => now + 86400 * daysByPriority task.priority
  let labels : List String :=
    match task.labels with
    | none => [task.priority.value]
    | some [] => [task.priority.value]
    | some ls => ls
  { listId := priorityLists task.priority
    name := task.name
    dueDate := due
    labels := labels }

/-- `escalate_task`'s priority inference (lines 139-145): the first label whose
name is a `Priority` value, `none` when no label matches. -/
def inferPriority (labels : List String) : Option Priority :=
  labels.findSome? Priority.ofString

/-- The `priority_order` list of `escalate_task`. -/
def priorityOrder : List Priority := [.low, .medium, .high, .critical]

/-- `escalate_task` (lines 131-182), as the trace of remote mutations issued
after the initial `get_card` read.  At `CRITICAL` it returns early with no
mutation; with no inferred priority, `priority_order.index(None)` raises
`ValueError`; otherwise it moves the card, replaces the priority label and
appends the escalation comment (whose formatted text is abbreviated to the
`reason` argument; the template around it is pure formatting). -/
def escalateTask (priorityLists : Priority → String) (cardLabels : List String)
    (cardId : String) (reason : String) : Except String (List TrelloAction) :=
  let cur : Option Priority := inferPriority cardLabels
  if cur = some Priority.critical then
    Except.ok []
  else
    match cur with
    | none => Except.error "ValueError: None is not in list"
    | some p =>
      match priorityOrder.findIdx? (· = p) with
      | none => Except.error "ValueError: priority is not in list"
      | some i =>
        match priorityOrder.get? (i + 1) with
        | none => Except.error "IndexError: list index out of range"
        | some newP =>
          Except.ok
            [ TrelloAction.moveCard cardId (priorityLists newP),
              TrelloAction.updateLabels cardId
                ((cardLabels.filter (fun l => l ≠ p.value)) ++ [newP.value]),
              TrelloAction.addComment cardId reason ]

/-- `KanbanAutomation.workflow_stages`. -/
def workflowStages : List String :=
  ["Backlog", "To Do", "In Progress", "Review", "Testing", "Done"]

/-- `move_card_to_stage` (lines 209-225): `stage_lists` is the stage-name to
list-id mapping; an unknown stage raises `ValueError` before any remote call
(the error trace is empty), otherwise the card is moved and the optional
transition comment appended. -/
def moveCardToStage (stageLists : List (String × String)) (cardId : String)
    (stage : String) (comment : Option String) :
    Except String (List TrelloAction) :=
  match stageLists.lookup stage with
  | none => Except.error ("Invalid stage: " ++ stage)
  | some listId =>
    Except.ok
      ([TrelloAction.moveCard cardId listId] ++
        match comment with
        | some c => [TrelloAction.addComment cardId c]
        | none => [])

/-- The warning card `apply_wip_limits` posts for one violating stage. -/
structure WipWarning where
  stage : String
  listId : String
  cardCount : Nat
  limit : Nat
deriving DecidableEq, Repr

/-- `apply_wip_limits` (lines 261-288): for each `(stage, limit)` entry of the
`limits` mapping, an unknown stage is skipped, otherwise the cards of the
stage's list are counted (`counts` gives `len(cards)` per list id) and a
warning card is posted exactly when the count exceeds the limit. -/
def applyWipLimits (stageLists : List (String × String)) (counts : String → Nat)
    (limits : List (String × Nat)) : List WipWarning :=
  limits.filterMap (fun sl =>
    match stageLists.lookup sl.1 with
    | none => none
    | some listId =>
      if sl.2 < counts listId then
        some ⟨sl.1, listId, counts listId, sl.2⟩
      else none)

/-- `leadsWith needle hay`: `hay` begins with `needle` (character lists). -/
def leadsWith : List Char → List Char → Bool
  | [], _ => true
  | _ :: _, [] => false
  | a :: as, b :: bs => a = b && leadsWith as bs

/-- Python's `needle in hay` substring test on strings, as character lists. -/
def containsSub (needle : List Char) : List Char → Bool
  | [] => needle.isEmpty
  | b :: bs => leadsWith needle (b :: bs) || containsSub needle bs

/-- The vote-annotated card name of `add_retro_item`:
`f"{title} (👍 {votes})"`. -/
def retroCardName (title : String) (votes : Nat) : String :=
  title ++ " (👍 " ++ toString votes ++ ")"

/-- `add_retro_item` (lines 338-363): scans the queried lists in order for the
first whose name contains `listName` as a substring; raises `ValueError` (with
no card created) when none matches, otherwise adds the vote-annotated card to
the matched list.  Each list is a `(name, id)` pair; the card's description
template (pure string formatting around the given description) is left out of
the record. -/
def addRetroItem (lists : List (String × String)) (listName : String)
    (title : String) (votes : Nat) : Except String TrelloAction :=
  match lists.find? (fun l => containsSub listName.data l.1.data) with
  | none => Except.error ("List " ++ listName ++ " not found")
  | some l => Except.ok (TrelloAction.addCard l.2 (retroCardName title votes))

/-- The numeric value of a digit run, as Python's `int` on the matched group. -/
def digitsVal (ds : List Char) : Nat :=
  ds.foldl (fun a c => a * 10 + (c.toNat - 48)) 0

/-- `re.match(r'\[(\d+)\]', name)` of `generate_burndown_data`: `re.match`
anchors at the start of the string, so the match succeeds exactly when the
name begins with `[`, one or more digits, `]`; the parsed group is returned. -/
def leadingBracketNum (s : String) : Option Nat :=
  match s.data with
  | [] => none
  | c :: rest =>
    if c = '[' then
      let ds := rest.takeWhile Char.isDigit
      if ds = [] then none
      else
        match rest.drop ds.length with
        | [] => none
        | d :: _ => if d = ']' then some (digitsVal ds) else none
    else none

/-- The story points a card's title contributes in `generate_burndown_data`
(zero when the leading-bracket match fails, since nothing is added). -/
def cardPoints (s : String) : Nat := (leadingBracketNum s).getD 0

/-- `generate_burndown_data`'s `total_points` accumulation (lines 423-436)
over the board's lists, each a `(name, card names)` pair. -/
def burndownTotalPoints (lists : List (String × List String)) : Nat :=
  lists.foldl (fun acc l => l.2.foldl (fun a c => a + cardPoints c) acc) 0

/-- `team_velocity_report` from the per-sprint point sums on (lines 487-497):
`vs` is `list(sprint_points.values())` in insertion order; the average is
`sum/len` when nonempty (else the initial `0`), the trend compares only the
last two entries (`velocities[-1]` against `velocities[-2]`) when at least two
exist (else the initial `"stable"`). -/
def velocityFromSums (vs : List Nat) : ℚ × String :=
  if vs.isEmpty then (0, "stable")
  else
    let avg : ℚ := (vs.sum : ℚ) / (vs.length : ℚ)
    let tr : String :=
      if 2 ≤ vs.length then
        let last := vs.getD (vs.length - 1) 0
        let prev := vs.getD (vs.length - 2) 0
        if prev < last then "increasing"
        else if last < prev then "decreasing"
        else "stable"
      else "stable"
    (avg, tr)

/-- A card as `generate_health_metrics` reads it: `due` and
`dateLastActivity` are parsed timestamps in seconds (`none` for an absent or
empty field), `labels` the label names. -/
structure HealthCard where
  name : String
  due : Option Int := none
  dueComplete : Bool := false
  labels : List String := []
  dateLastActivity : Option Int := none
deriving DecidableEq, Repr

/-- The overdue check of `generate_health_metrics` (lines 529-537): a due date
is set, lies before `now`, and `dueComplete` is falsy. -/
def isOverdue (now : Int) (c : HealthCard) : Bool :=
  match c.due with
  | some d => decide (d < now) && !c.dueComplete
  | none => false

/-- The blocked check (line 540): some label name is exactly `"blocked"`. -/
def isBlocked (c : HealthCard) : Bool :=
  c.labels.any (fun l => l = "blocked")

/-- The stale check (lines 548-552): `(now - last_activity).days > 14`, where
`timedelta.days` is floor division of the elapsed seconds by 86400. -/
def isStale (now : Int) (c : HealthCard) : Bool :=
  match c.dateLastActivity with
  | some t => decide (14 < (now - t).fdiv 86400)
  | none => false

/-- One card's pass of the `generate_health_metrics` loop body over the
running `health_score`: `-5` if overdue, `-3` if blocked, `-1` if stale. -/
def scanCard (now : Int) (score : Int) (c : HealthCard) : Int :=
  let s1 := if isOverdue now c then score - 5 else score
  let s2 := if isBlocked c then s1 - 3 else s1
  if isStale now c then s2 - 1 else s2

/-- `generate_health_metrics`' `health_score` (lines 501-570): starts at 100,
scans every list's cards once, and is floored at 0 at the end
(`max(0, metrics['health_score'])`).  Each inner list holds one remote list's
cards. -/
def healthScore (now : Int) (lists : List (List HealthCard)) : Int :=
  max 0 (lists.foldl (fun s cards => cards.foldl (scanCard now) s) 100)

/-- The total deduction one card causes in `generate_health_metrics`. -/
def cardDed (now : Int) (c : HealthCard) : Int :=
  (if isOverdue now c then 5 else 0) + (if isBlocked c then 3 else 0) +
    (if isStale now c then 1 else 0)

/-- Number of overdue cards across the board. -/
def overdueCount (now : Int) (lists : List (List HealthCard)) : Nat :=
  lists.flatten.countP (isOverdue now)

/-- Number of blocked cards across the board. -/
def blockedCount (lists : List (List HealthCard)) : Nat :=
  lists.flatten.countP isBlocked

/-- Number of stale cards across the board, with the code's whole-day test. -/
def staleCount (now : Int) (lists : List (List HealthCard)) : Nat :=
  lists.flatten.countP (isStale now)

/-- The claim's wording of staleness: `dateLastActivity` more than 14 days
(14·86400 seconds) before `now` — for comparison with the code's
`isStale`, which floors the elapsed time to whole days first. -/
def staleClaim (now : Int) (c : HealthCard) : Bool :=
  match c.dateLastActivity with
  | some t => decide (14 * 86400 < now - t)
  | none => false

/-- The health score as the claim words it:
`max(0, 100 − 5·overdue − 3·blocked − 1·stale)` with the claim's reading of
"stale" (`staleClaim`). -/
def claimHealthScore (now : Int) (lists : List (List HealthCard)) : Int :=
  max 0 (100 - 5 * (overdueCount now lists : Int) - 3 * (blockedCount lists : Int)
    - 1 * (lists.flatten.countP (staleClaim now) : Int))

/-- The claim's wording of the burndown point pattern: the title starts with
`[<digits>]` (a nonempty digit run), whose value is the contribution. -/
def bracketPrefixSpec (s : String) (n : Nat) : Prop :=
  ∃ ds rest, s.data = '[' :: (ds ++ ']' :: rest) ∧ ds ≠ [] ∧
    (∀ c ∈ ds, c.isDigit = true) ∧ digitsVal ds = n

/-- C1: for every `Task` whose `due_date` is absent, `create_task` assigns a
due date of the current instant plus exactly 1 day for critical priority, 3
for high, 7 for medium and 14 for low; a `Task` given an explicit `due_date`
keeps it unchanged. -/
theorem create_task_due_date_c1 (plists : Priority → String) (t : Task)
    (now : Int) :
    (t.dueDate = none →
      (createTask plists t now).dueDate = now + 86400 * daysByPriority t.priority) ∧
    (∀ d, t.dueDate = some d → (createTask plists t now).dueDate = d) ∧
    daysByPriority Priority.critical = 1 ∧ daysByPriority Priority.high = 3 ∧
    daysByPriority Priority.medium = 7 ∧ daysByPriority Priority.low = 14 := by
  refine ⟨fun h => ?_, fun d h => ?_, rfl, rfl, rfl, rfl⟩ <;>
    simp [createTask, h]

/-- C10: when a `Task` has no labels (absent or empty), `create_task` issues
the card creation with labels `[task.priority.value]`; given labels are
passed through unchanged, without adding the priority value. -/
theorem create_task_labels_c10 (plists : Priority → String) (t : Task)
    (now : Int) :
    ((t.labels = none ∨ t.labels = some []) →
      (createTask plists t now).labels = [t.priority.value]) ∧
    (∀ l ls, t.labels = some (l :: ls) →
      (createTask plists t now).labels = l :: ls) := by
  constructor
  · rintro (h | h) <;> simp [createTask, h]
  · intro l ls h
    simp [createTask, h]

/-- C6: for every card whose inferred priority is critical, `escalate_task`
returns early with an empty mutation trace: no move, no label update, no
comment. -/
theorem escalate_critical_noop_c6 (plists : Priority → String)
    (cardLabels : List String) (cardId reason : String)
    (h : inferPriority cardLabels = some Priority.critical) :
    escalateTask plists cardLabels cardId reason = Except.ok [] := by
  simp [escalateTask, h]

/-- Witness for C6 at the concrete card labels `["critical"]`. -/
theorem escalate_critical_noop_c6_witness :
    escalateTask (fun _ => "L") ["critical"] "card-1" "urgent fix" =
      Except.ok [] :=
  escalate_critical_noop_c6 (fun _ => "L") ["critical"] "card-1" "urgent fix" rfl

/-- C7: when no card label is a known priority value, priority inference
yields nothing and `escalate_task` fails with the `ValueError` of
`priority_order.index(None)`, issuing no mutation. -/
theorem escalate_no_priority_error_c7 (plists : Priority → String)
    (cardLabels : List String) (cardId reason : String)
    (h : ∀ l ∈ cardLabels, Priority.ofString l = none) :
    escalateTask plists cardLabels cardId reason =
      Except.error "ValueError: None is not in list" := by
  have hinf : inferPriority cardLabels = none := by
    simpa [inferPriority, List.findSome?_eq_none_iff] using h
  simp [escalateTask, hinf]

/-- Witness for C7 at the concrete card labels `["urgent", "blue"]`. -/
theorem escalate_no_priority_error_c7_witness :
    escalateTask (fun _ => "L") ["urgent", "blue"] "card-2" "why" =
      Except.error "ValueError: None is not in list" :=
  escalate_no_priority_error_c7 (fun _ => "L") ["urgent", "blue"] "card-2" "why"
    (by intro l hl
        simp only [List.mem_cons, List.not_mem_nil, or_false] at hl
        rcases hl with rfl | rfl <;> rfl)

/-- C8: `move_card_to_stage` raises the `ValueError` exactly when the stage
name is unknown, and then issues no remote call (the error carries no
actions); on a known stage it moves the card and appends the optional
comment. -/
theorem move_card_to_stage_c8 (stageLists : List (String × String))
    (cardId stage : String) (comment : Option String) :
    (stageLists.lookup stage = none →
      moveCardToStage stageLists cardId stage comment =
        Except.error ("Invalid stage: " ++ stage)) ∧
    (∀ e, moveCardToStage stageLists cardId stage comment = Except.error e →
      stageLists.lookup stage = none) ∧
    (∀ listId, stageLists.lookup stage = some listId →
      moveCardToStage stageLists cardId stage comment =
        Except.ok ([TrelloAction.moveCard cardId listId] ++
          match comment with
          | some c => [TrelloAction.addComment cardId c]
          | none => [])) := by
  refine ⟨fun h => by simp [moveCardToStage, h], fun e he => ?_,
    fun listId h => by simp [moveCardToStage, h]⟩
  cases hlk : stageLists.lookup stage with
  | none => rfl
  | some listId => simp [moveCardToStage, hlk] at he

/-- C5: for every stage of the limits mapping that is a known workflow stage,
`apply_wip_limits` posts the WIP warning card to the stage's list exactly when
the list's card count strictly exceeds the configured limit; an exactly-equal
count posts nothing. -/
theorem apply_wip_limits_c5 (stageLists : List (String × String))
    (counts : String → Nat) (limits : List (String × Nat))
    (stage : String) (limit : Nat) (listId : String)
    (hmem : (stage, limit) ∈ limits)
    (hlk : stageLists.lookup stage = some listId) :
    ((⟨stage, listId, counts listId, limit⟩ : WipWarning) ∈
        applyWipLimits stageLists counts limits) ↔ limit < counts listId := by
  constructor
  · intro hw
    rcases List.mem_filterMap.mp hw with ⟨p, hp, hfp⟩
    rcases p with ⟨ps, pl⟩
    dsimp only [applyWipLimits] at hfp
    cases hpk : stageLists.lookup ps with
    | none => rw [hpk] at hfp; exact absurd hfp (by simp)
    | some lid =>
      rw [hpk] at hfp
      dsimp only at hfp
      by_cases hc : pl < counts lid
      · rw [if_pos hc] at hfp
        simp only [Option.some.injEq, WipWarning.mk.injEq] at hfp
        obtain ⟨h1, h2, h3, h4⟩ := hfp
        subst h2
        subst h4
        exact hc
      · rw [if_neg hc] at hfp
        exact absurd hfp (by simp)
  · intro hc
    exact List.mem_filterMap.mpr ⟨(stage, limit), hmem, by simp [hlk, hc]⟩

/-- Witness for C5: limit 2, three cards in the list, the warning is posted. -/
theorem apply_wip_limits_c5_witness :
    (⟨"In Progress", "L1", 3, 2⟩ : WipWarning) ∈
      applyWipLimits [("In Progress", "L1")] (fun _ => 3) [("In Progress", 2)] :=
  (apply_wip_limits_c5 [("In Progress", "L1")] (fun _ => 3) [("In Progress", 2)]
      "In Progress" 2 "L1" (by simp) (by simp)).mpr (by decide)

/-- `List.find?` returns the element at the first index satisfying the
predicate. -/
theorem find?_first_eq {α : Type} (p : α → Bool) (l : List α) (i : Nat)
    (hi : i < l.length) (hp : p (l.get ⟨i, hi⟩) = true)
    (hlt : ∀ j (hj : j < i), p (l.get ⟨j, Nat.lt_trans hj hi⟩) = false) :
    l.find? p = some (l.get ⟨i, hi⟩) := by
  induction l generalizing i with
  | nil => exact absurd hi (Nat.not_lt_zero i)
  | cons a t ih =>
    cases i with
    | zero =>
      exact List.find?_cons_of_pos t hp
    | succ j =>
      have ha : p a = false := hlt 0 (Nat.succ_pos j)
      rw [List.find?_cons_of_neg t (by simp [ha])]
      exact ih j (Nat.lt_of_succ_lt_succ hi) hp
        (fun k hk => hlt (k + 1) (Nat.succ_lt_succ hk))

/-- C9: `add_retro_item` appends the vote-annotated card to the first queried
list whose name contains the given list name as a substring, and raises the
`ValueError` (creating no card) exactly when no list name contains it. -/
theorem add_retro_item_c9 (lists : List (String × String))
    (listName title : String) (votes : Nat) :
    ((∀ l ∈ lists, containsSub listName.data l.1.data = false) →
      addRetroItem lists listName title votes =
        Except.error ("List " ++ listName ++ " not found")) ∧
    (∀ i (hi : i < lists.length),
      containsSub listName.data (lists.get ⟨i, hi⟩).1.data = true →
      (∀ j (hj : j < i),
        containsSub listName.data (lists.get ⟨j, Nat.lt_trans hj hi⟩).1.data = false) →
      addRetroItem lists listName title votes =
        Except.ok (TrelloAction.addCard (lists.get ⟨i, hi⟩).2
          (retroCardName title votes))) := by
  constructor
  · intro h
    have hn : lists.find? (fun l => containsSub listName.data l.1.data) = none :=
      List.find?_eq_none.mpr (fun x hx => by simp [h x hx])
    simp [addRetroItem, hn]
  · intro i hi hp hlt
    have hf := find?_first_eq (fun l => containsSub listName.data l.1.data)
      lists i hi hp hlt
    simp [addRetroItem, hf]

/-- One pass of the health-score loop body subtracts exactly the card's
deduction. -/
theorem scanCard_eq (now : Int) (s : Int) (c : HealthCard) :
    scanCard now s c = s - cardDed now c := by
  cases hO : isOverdue now c <;> cases hB : isBlocked c <;>
    cases hS : isStale now c <;>
      simp [scanCard, cardDed, hO, hB, hS] <;> ring

/-- The inner card loop subtracts the sum of the cards' deductions. -/
theorem foldl_scanCard (now : Int) (cards : List HealthCard) (s : Int) :
    cards.foldl (scanCard now) s = s - (cards.map (cardDed now)).sum := by
  induction cards generalizing s with
  | nil => simp
  | cons c t ih =>
    rw [List.foldl_cons, scanCard_eq, ih, List.map_cons, List.sum_cons]
    ring

/-- The outer list loop subtracts the deductions of all cards of the board. -/
theorem foldl_scan_lists (now : Int) (lists : List (List HealthCard)) (s : Int) :
    lists.foldl (fun acc cards => cards.foldl (scanCard now) acc) s =
      s - (lists.flatten.map (cardDed now)).sum := by
  induction lists generalizing s with
  | nil => simp
  | cons cs t ih =>
    rw [List.foldl_cons, List.flatten_cons, List.map_append, List.sum_append,
      ih, foldl_scanCard]
    ring

/-- The summed deductions are five per overdue card, three per blocked card
and one per stale card. -/
theorem dedSum_eq_counts (now : Int) (l : List HealthCard) :
    (l.map (cardDed now)).sum =
      5 * (l.countP (isOverdue now) : Int) + 3 * (l.countP isBlocked : Int) +
        (l.countP (isStale now) : Int) := by
  induction l with
  | nil => simp
  | cons c t ih =>
    cases hO : isOverdue now c <;> cases hB : isBlocked c <;>
      cases hS : isStale now c <;>
        simp [List.countP_cons, cardDed, hO, hB, hS, ih] <;> ring

/-- C2 (amended): `generate_health_metrics` returns
`max 0 (100 − 5·overdue − 3·blocked − 1·stale)`, where a card is stale when
the elapsed whole days since `dateLastActivity` (floor of seconds / 86400,
Python's `timedelta.days`) exceed 14 — not when merely more than 14 days of
seconds have elapsed; in particular the score is never negative. -/
theorem generate_health_metrics_c2 (now : Int) (lists : List (List HealthCard)) :
    healthScore now lists =
      max 0 (100 - 5 * (overdueCount now lists : Int)
        - 3 * (blockedCount lists : Int) - 1 * (staleCount now lists : Int)) ∧
    0 ≤ healthScore now lists := by
  constructor
  · unfold healthScore overdueCount blockedCount staleCount
    rw [foldl_scan_lists, dedSum_eq_counts]
    congr 1
    ring
  · exact le_max_left 0 _

/-- Counterexample to C2 as stated: a single card whose `dateLastActivity`
lies 14 days and one hour before `now` is "more than 14 days before now", so
the claim's formula yields 99, but the code's whole-day staleness test
(`timedelta.days > 14`) does not fire and the score stays 100. -/
theorem generate_health_metrics_c2_cex :
    healthScore (14 * 86400 + 3600)
        [[{ name := "c", due := none, dueComplete := false, labels := [],
            dateLastActivity := some 0 }]] = 100 ∧
    claimHealthScore (14 * 86400 + 3600)
        [[{ name := "c", due := none, dueComplete := false, labels := [],
            dateLastActivity := some 0 }]] = 99 := by
  constructor <;> decide

/-- With at least two sprints, the trend is computed from the last two
per-sprint totals only. -/
theorem velocityFromSums_trend (vs : List Nat) (h2 : 2 ≤ vs.length) :
    (velocityFromSums vs).2 =
      (if vs.getD (vs.length - 2) 0 < vs.getD (vs.length - 1) 0 then "increasing"
       else if vs.getD (vs.length - 1) 0 < vs.getD (vs.length - 2) 0 then "decreasing"
       else "stable") := by
  have hne : vs.isEmpty = false := by
    cases vs with
    | nil => simp at h2
    | cons a t => rfl
  simp [velocityFromSums, hne, h2]

/-- With at least one sprint, the reported average is `sum / count`. -/
theorem velocityFromSums_avg (vs : List Nat) (hne : vs.isEmpty = false) :
    (velocityFromSums vs).1 = (vs.sum : ℚ) / (vs.length : ℚ) := by
  simp [velocityFromSums, hne]

/-- C3 (amended): the average velocity is the arithmetic mean of the
per-sprint sums, and the trend is set by comparing only the last two
per-sprint totals — last greater than second-to-last gives `"increasing"`,
smaller gives `"decreasing"`, otherwise `"stable"` — so sprint history beyond
the final two values does not affect the trend; on the sums 10, 15, 12 the
trend is `"decreasing"` and the average is `37/3 = 12.333…` (12.33 only after
rounding to two decimals, not the exact value 12.33). -/
theorem team_velocity_c3 (vs ws : List Nat) (hv : 2 ≤ vs.length)
    (hw : 2 ≤ ws.length)
    (hlast : vs.getD (vs.length - 1) 0 = ws.getD (ws.length - 1) 0)
    (hprev : vs.getD (vs.length - 2) 0 = ws.getD (ws.length - 2) 0) :
    (velocityFromSums vs).1 = (vs.sum : ℚ) / (vs.length : ℚ) ∧
    (velocityFromSums vs).2 =
      (if vs.getD (vs.length - 2) 0 < vs.getD (vs.length - 1) 0 then "increasing"
       else if vs.getD (vs.length - 1) 0 < vs.getD (vs.length - 2) 0 then "decreasing"
       else "stable") ∧
    (velocityFromSums vs).2 = (velocityFromSums ws).2 ∧
    (velocityFromSums [10, 15, 12]).2 = "decreasing" ∧
    (velocityFromSums [10, 15, 12]).1 = (37 : ℚ) / 3 := by
  have hvne : vs.isEmpty = false := by
    cases vs with
    | nil => simp at hv
    | cons a t => rfl
  refine ⟨velocityFromSums_avg vs hvne, velocityFromSums_trend vs hv, ?_, ?_, ?_⟩
  · rw [velocityFromSums_trend vs hv, velocityFromSums_trend ws hw, hlast, hprev]
  · rw [velocityFromSums_trend [10, 15, 12] (by norm_num)]
    norm_num
  · rw [velocityFromSums_avg [10, 15, 12] rfl]
    norm_num

/-- Witness for C3: the sums 10, 15, 12 and 99, 15, 12 share their final two
totals and get the same trend. -/
theorem team_velocity_c3_witness :
    (velocityFromSums [10, 15, 12]).2 = (velocityFromSums [99, 15, 12]).2 :=
  (team_velocity_c3 [10, 15, 12] [99, 15, 12] (by norm_num) (by norm_num)
    (by decide) (by decide)).2.2.1

/-- Counterexample to C3 as stated: on the per-sprint sums 10, 15, 12 the
trend is `"decreasing"` as claimed, but the average is `37/3 = 12.333…`, not
the claimed exact value 12.33. -/
theorem team_velocity_c3_cex :
    (velocityFromSums [10, 15, 12]).2 = "decreasing" ∧
    (velocityFromSums [10, 15, 12]).1 ≠ (1233 : ℚ) / 100 := by
  constructor
  · rw [velocityFromSums_trend [10, 15, 12] (by norm_num)]
    norm_num
  · rw [velocityFromSums_avg [10, 15, 12] rfl]
    norm_num

/-- Dropping as many elements as `takeWhile` keeps leaves `dropWhile`. -/
theorem drop_length_takeWhile {α : Type} (p : α → Bool) (l : List α) :
    l.drop (l.takeWhile p).length = l.dropWhile p := by
  induction l with
  | nil => rfl
  | cons a t ih =>
    by_cases h : p a = true
    · rw [List.takeWhile_cons_of_pos h, List.dropWhile_cons_of_pos h,
        List.length_cons, List.drop_succ_cons, ih]
    · rw [List.takeWhile_cons_of_neg (by simp [h]),
        List.dropWhile_cons_of_neg (by simp [h])]
      rfl

/-- The leading-bracket match of `generate_burndown_data` succeeds with value
`n` exactly when the title starts with `[`, a nonempty digit run of value
`n`, then `]`. -/
theorem leadingBracketNum_iff (s : String) (n : Nat) :
    leadingBracketNum s = some n ↔ bracketPrefixSpec s n := by
  constructor
  · intro h
    unfold leadingBracketNum at h
    cases hd : s.data with
    | nil => rw [hd] at h; exact absurd h (by simp)
    | cons c rest =>
      rw [hd] at h
      dsimp only at h
      by_cases hc : c = '['
      · rw [if_pos hc] at h
        subst hc
        by_cases hne : rest.takeWhile Char.isDigit = []
        · rw [if_pos hne] at h
          exact absurd h (by simp)
        · rw [if_neg hne] at h
          have hdw : rest.drop (rest.takeWhile Char.isDigit).length =
              rest.dropWhile Char.isDigit :=
            drop_length_takeWhile Char.isDigit rest
          cases hdrop : rest.dropWhile Char.isDigit with
          | nil => rw [hdw, hdrop] at h; exact absurd h (by simp)
          | cons d tail =>
            rw [hdw, hdrop] at h
            dsimp only at h
            by_cases hdc : d = ']'
            · rw [if_pos hdc] at h
              subst hdc
              refine ⟨rest.takeWhile Char.isDigit, tail, ?_, hne, ?_, ?_⟩
              · rw [hd]
                congr 1
                rw [← hdrop, List.takeWhile_append_dropWhile]
              · intro x hx
                exact List.mem_takeWhile_imp hx
              · exact Option.some.inj h
            · rw [if_neg hdc] at h
              exact absurd h (by simp)
      · rw [if_neg hc] at h
        exact absurd h (by simp)
  · rintro ⟨ds, rest, hsd, hne, hdig, hval⟩
    unfold leadingBracketNum
    rw [hsd]
    dsimp only
    rw [if_pos rfl]
    have htw : (ds ++ ']' :: rest).takeWhile Char.isDigit = ds := by
      rw [List.takeWhile_append_of_pos hdig,
        List.takeWhile_cons_of_neg (by decide : ¬(']'.isDigit = true)),
        List.append_nil]
    rw [htw, if_neg hne]
    have hdr : (ds ++ ']' :: rest).drop ds.length = ']' :: rest :=
      List.drop_left ds (']' :: rest)
    rw [hdr]
    dsimp only
    rw [hval]
    simp

/-- The inner card loop of `generate_burndown_data` adds the cards' points. -/
theorem foldl_points (cards : List String) (a : Nat) :
    cards.foldl (fun x c => x + cardPoints c) a = a + (cards.map cardPoints).sum := by
  induction cards generalizing a with
  | nil => simp
  | cons c t ih =>
    rw [List.foldl_cons, ih, List.map_cons, List.sum_cons]
    ring

/-- The outer list loop of `generate_burndown_data` sums the per-list sums. -/
theorem burndown_foldl (lists : List (String × List String)) (a : Nat) :
    lists.foldl (fun acc l => l.2.foldl (fun x c => x + cardPoints c) acc) a =
      a + (lists.map (fun l => (l.2.map cardPoints).sum)).sum := by
  induction lists generalizing a with
  | nil => simp
  | cons l t ih =>
    rw [List.foldl_cons, List.map_cons, List.sum_cons, foldl_points, ih]
    ring

/-- C4: in `generate_burndown_data`, a card contributes its bracketed value
exactly when its title starts with `[<digits>]`; every other card contributes
zero, even when a bracketed number occurs later in the title (the match is
anchored at the start). -/
theorem burndown_points_c4 (lists : List (String × List String)) (s : String)
    (n : Nat) :
    burndownTotalPoints lists =
      (lists.map (fun l => (l.2.map cardPoints).sum)).sum ∧
    (leadingBracketNum s = some n ↔ bracketPrefixSpec s n) ∧
    (cardPoints s = 0 ∨ bracketPrefixSpec s (cardPoints s)) := by
  refine ⟨by simpa using burndown_foldl lists 0, leadingBracketNum_iff s n, ?_⟩
  cases h : leadingBracketNum s with
  | none =>
    left
    simp [cardPoints, h]
  | some m =>
    right
    have hm := (leadingBracketNum_iff s m).mp h
    simpa [cardPoints, h] using hm

end TrelloExamples
